import Mathlib

/-!
Shallow embedding of `src/interpreter.rs` from the pulsar repository: a
tree-walking evaluator over already-parsed AST nodes, with a single mutable
global environment and one built-in function (`print`).

Modelling conventions:
* Rust `i64` values are Lean `Int` with explicit range checks where the host
  arithmetic can fault: checked (panicking) arithmetic semantics are used, so
  an operation whose exact result falls outside `[-2^63, 2^63 - 1]` faults,
  and division faults on a zero divisor (Rust checks division and remainder
  in every build).
* A Rust `panic!` (type error, undefined variable, undefined function,
  out-of-bounds index, arithmetic fault) is `Except.error`, carrying the
  state (globals and stdout produced so far) at the moment of the abort.
* `HashMap<String, ValueType>` is an association list with unique keys:
  `insertVal` overwrites the binding of an existing key, `getVal` looks a
  key up.
* Standard output is a `String` accumulated in evaluation order.
-/

/-- Modelled from the spec: `lexer::Token` is not under `src/` (only
`interpreter.rs` is). The spec lists Integer, Text and Boolean literals and
Identifier, "plus other kinds the core treats opaquely as Unit-producing";
the single constructor `Other` stands for all of those remaining kinds,
which the interpreter's wildcard arm maps to `Nothing`. -/
inductive Token where
  | Num (i : Int)
  | String (s : String)
  | Bool (b : Bool)
  | Identifier (name : String)
  | Other
deriving DecidableEq

/-- Modelled from the spec: `parser::Operator` is not under `src/`; the spec
lists exactly the tags assign, add, subtract, multiply, divide, equal,
not-equal, matching the variants the interpreter dispatches on. -/
inductive Operator where
  | SetVal
  | Add
  | Sub
  | Mul
  | Div
  | Eq
  | Neq
deriving DecidableEq

/-- Modelled from the spec: `parser::Expr` is not under `src/`; the spec
describes a closed sum over a binary expression (operator plus left/right
sub-expressions), a token-wrapped leaf, and a function call (name plus
ordered argument expressions) — exactly the shapes `interpret_expr`
matches on. -/
inductive Expr where
  | BinaryExpr (op : Operator) (lhs rhs : Expr)
  | Token (t : Token)
  | FnCall (name : String) (args : List Expr)

mutual
/-- Rust `ValueType` from `interpreter.rs`: Int(i64), String, Bool, Fn, Nothing. -/
inductive ValueType where
  | Int (i : Int)
  | String (s : String)
  | Bool (b : Bool)
  | Fn (f : FnType)
  | Nothing

/-- Rust `FnType` from `interpreter.rs`: Builtin or User function descriptor. -/
inductive FnType where
  | Builtin (f : BuiltinFn)
  | User (f : UserFn)

/-- Rust `BuiltinFn` from `interpreter.rs`: name, args, body, boxed return type. -/
inductive BuiltinFn where
  | mk (name : String) (args : List String) (body : List Expr)
      (return_type : ValueType)

/-- Rust `UserFn` from `interpreter.rs`: name, args, body, boxed return type. -/
inductive UserFn where
  | mk (name : String) (args : List String) (body : List Expr)
      (return_type : ValueType)
end

mutual
/-- Structural equality on `Expr`, mirroring the derived `PartialEq` the
parser's `Expr` must provide (it is stored in `BuiltinFn`/`UserFn`, which
derive `PartialEq`). Modelled from the spec's external-AST contract since
`parser.rs` is not under `src/`. -/
def exprBeq : Expr → Expr → Bool
  | Expr.BinaryExpr o1 l1 r1, Expr.BinaryExpr o2 l2 r2 =>
      o1 == o2 && exprBeq l1 l2 && exprBeq r1 r2
  | Expr.Token t1, Expr.Token t2 => t1 == t2
  | Expr.FnCall n1 a1, Expr.FnCall n2 a2 => n1 == n2 && exprListBeq a1 a2
  | _, _ => false

/-- Elementwise `exprBeq` on lists (derived `PartialEq` for `Vec<Expr>`). -/
def exprListBeq : List Expr → List Expr → Bool
  | [], [] => true
  | e :: es, f :: fs => exprBeq e f && exprListBeq es fs
  | _, _ => false
end

mutual
/-- The derived `PartialEq` on `ValueType`: same-variant payload equality. -/
def valueBeq : ValueType → ValueType → Bool
  | ValueType.Int a, ValueType.Int b => a == b
  | ValueType.String a, ValueType.String b => a == b
  | ValueType.Bool a, ValueType.Bool b => a == b
  | ValueType.Fn f, ValueType.Fn g => fnTypeBeq f g
  | ValueType.Nothing, ValueType.Nothing => true
  | _, _ => false
termination_by structural v _ => v

/-- The derived `PartialEq` on `FnType`. -/
def fnTypeBeq : FnType → FnType → Bool
  | FnType.Builtin f, FnType.Builtin g => builtinFnBeq f g
  | FnType.User f, FnType.User g => userFnBeq f g
  | _, _ => false

/-- The derived `PartialEq` on `BuiltinFn`: fieldwise equality. -/
def builtinFnBeq : BuiltinFn → BuiltinFn → Bool
  | BuiltinFn.mk n1 a1 b1 r1, BuiltinFn.mk n2 a2 b2 r2 =>
      n1 == n2 && a1 == a2 && exprListBeq b1 b2 && valueBeq r1 r2

/-- The derived `PartialEq` on `UserFn`: fieldwise equality. -/
def userFnBeq : UserFn → UserFn → Bool
  | UserFn.mk n1 a1 b1 r1, UserFn.mk n2 a2 b2 r2 =>
      n1 == n2 && a1 == a2 && exprListBeq b1 b2 && valueBeq r1 r2
end

/-- The `Display for ValueType` impl in `interpreter.rs`: Int as decimal, String as
its raw content, Bool as true/false, Fn writes nothing, Nothing as the
literal text `Nothing`. -/
def renderValue : ValueType → String
  | ValueType.Int i => toString i
  | ValueType.String s => s
  | ValueType.Bool b => toString b
  | ValueType.Fn _ => ""
  | ValueType.Nothing => "Nothing"

/-- Modelled from the spec: the assignment arm calls `lhs.to_string()`, i.e.
the parser's `Display for Expr`, and `parser.rs` is not under `src/`. The
spec constrains only the case used: an assignment left-hand side is "a bare
identifier", bound "under lhs's name", so an identifier token renders as its
name; every other shape is left unconstrained by the spec and rendered here
as the empty string. -/
def renderExpr : Expr → String
  | Expr.Token (Token.Identifier x) => x
  | _ => ""

/-- Environment of `State.globals`: `HashMap<String, ValueType>` as a
unique-key association list. -/
def Globals : Type := List (String × ValueType)

/-- Rust `HashMap::insert`: overwrite the binding of an existing key, otherwise
append a new binding. -/
def insertVal : Globals → String → ValueType → Globals
  | [], k, v => [(k, v)]
  | (k', v') :: rest, k, v =>
      if k' = k then (k, v) :: rest else (k', v') :: insertVal rest k v

/-- Rust `HashMap::get`: look up a key. -/
def getVal : Globals → String → Option ValueType
  | [], _ => none
  | (k', v') :: rest, k => if k' = k then some v' else getVal rest k

/-- Interpreter state: the global environment (`State.globals`) together
with the standard output produced so far. -/
structure St where
  globals : Globals
  out : String

/-- Lower bound of Rust `i64`. -/
def i64Min : Int := -(2 ^ 63)

/-- Upper bound of Rust `i64`. -/
def i64Max : Int := 2 ^ 63 - 1

/-- Checked `i64` arithmetic: the exact result when it is representable,
`none` (a fault) when the host operation overflows. -/
def checkedI64 (n : Int) : Option Int :=
  if i64Min ≤ n ∧ n ≤ i64Max then some n else none

/-- Rust `Interpreter::call_fn`: dispatch a call by name against the hard-coded
built-in registry. Only `print` exists: with more than one argument it
writes, for each argument, its rendering followed by `", "` unless the
argument equals (derived `PartialEq`) the last argument, then a newline;
otherwise it writes the rendering of `args[0]` (an out-of-bounds fault when
there are no arguments) followed by a newline, and returns `Nothing`. Any
other name is a fatal "Undefined function" error. -/
def callFn (name : String) (args : List ValueType) (s : St) :
    Except St (ValueType × St) :=
  if name = "print" then
    if 1 < args.length then
      let lastArg := args.getLastD ValueType.Nothing
      let pieces := args.foldl
        (fun acc arg =>
          if valueBeq arg lastArg then acc ++ renderValue arg
          else acc ++ renderValue arg ++ ", ") ""
      Except.ok (ValueType.Nothing, St.mk s.globals (s.out ++ pieces ++ "\n"))
    else
      match args with
      | [] => Except.error s
      | a :: _ =>
          Except.ok (ValueType.Nothing,
            St.mk s.globals (s.out ++ renderValue a ++ "\n"))
  else Except.error s

mutual
/-- Rust `Interpreter::interpret_expr`: reduce one AST node to a value,
threading the state; `Except.error` is a fatal abort carrying the state at
the moment of the panic. -/
def interpretExpr : Expr → St → Except St (ValueType × St)
  | Expr.BinaryExpr Operator.SetVal lhs rhs, s =>
      match interpretExpr rhs s with
      | Except.error s' => Except.error s'
      | Except.ok (v, s') =>
          Except.ok (ValueType.Nothing,
            St.mk (insertVal s'.globals (renderExpr lhs) v) s'.out)
  | Expr.BinaryExpr Operator.Add lhs rhs, s =>
      match interpretExpr lhs s with
      | Except.error s1 => Except.error s1
      | Except.ok (l, s1) =>
          match interpretExpr rhs s1 with
          | Except.error s2 => Except.error s2
          | Except.ok (r, s2) =>
              match l, r with
              | ValueType.Int a, ValueType.Int b =>
                  match checkedI64 (a + b) with
                  | some n => Except.ok (ValueType.Int n, s2)
                  | none => Except.error s2
              | ValueType.String a, ValueType.String b =>
                  Except.ok (ValueType.String (a ++ b), s2)
              | _, _ => Except.error s2
  | Expr.BinaryExpr Operator.Sub lhs rhs, s =>
      match interpretExpr lhs s with
      | Except.error s1 => Except.error s1
      | Except.ok (l, s1) =>
          match interpretExpr rhs s1 with
          | Except.error s2 => Except.error s2
          | Except.ok (r, s2) =>
              match l, r with
              | ValueType.Int a, ValueType.Int b =>
                  match checkedI64 (a - b) with
                  | some n => Except.ok (ValueType.Int n, s2)
                  | none => Except.error s2
              | _, _ => Except.error s2
  | Expr.BinaryExpr Operator.Mul lhs rhs, s =>
      match interpretExpr lhs s with
      | Except.error s1 => Except.error s1
      | Except.ok (l, s1) =>
          match interpretExpr rhs s1 with
          | Except.error s2 => Except.error s2
          | Except.ok (r, s2) =>
              match l, r with
              | ValueType.Int a, ValueType.Int b =>
                  match checkedI64 (a * b) with
                  | some n => Except.ok (ValueType.Int n, s2)
                  | none => Except.error s2
              | _, _ => Except.error s2
  | Expr.BinaryExpr Operator.Div lhs rhs, s =>
      match interpretExpr lhs s with
      | Except.error s1 => Except.error s1
      | Except.ok (l, s1) =>
          match interpretExpr rhs s1 with
          | Except.error s2 => Except.error s2
          | Except.ok (r, s2) =>
              match l, r with
              | ValueType.Int a, ValueType.Int b =>
                  if b = 0 then Except.error s2
                  else
                    match checkedI64 (Int.tdiv a b) with
                    | some n => Except.ok (ValueType.Int n, s2)
                    | none => Except.error s2
              | _, _ => Except.error s2
  | Expr.BinaryExpr Operator.Eq lhs rhs, s =>
      match interpretExpr lhs s with
      | Except.error s1 => Except.error s1
      | Except.ok (l, s1) =>
          match interpretExpr rhs s1 with
          | Except.error s2 => Except.error s2
          | Except.ok (r, s2) =>
              match l, r with
              | ValueType.Int a, ValueType.Int b =>
                  Except.ok (ValueType.Bool (a == b), s2)
              | ValueType.String a, ValueType.String b =>
                  Except.ok (ValueType.Bool (a == b), s2)
              | ValueType.Bool a, ValueType.Bool b =>
                  Except.ok (ValueType.Bool (a == b), s2)
              | _, _ => Except.error s2
  | Expr.BinaryExpr Operator.Neq lhs rhs, s =>
      match interpretExpr lhs s with
      | Except.error s1 => Except.error s1
      | Except.ok (l, s1) =>
          match interpretExpr rhs s1 with
          | Except.error s2 => Except.error s2
          | Except.ok (r, s2) =>
              match l, r with
              | ValueType.Int a, ValueType.Int b =>
                  Except.ok (ValueType.Bool (a != b), s2)
              | ValueType.String a, ValueType.String b =>
                  Except.ok (ValueType.Bool (a != b), s2)
              | ValueType.Bool a, ValueType.Bool b =>
                  Except.ok (ValueType.Bool (a != b), s2)
              | _, _ => Except.error s2
  | Expr.Token t, s =>
      match t with
      | Token.Num x => Except.ok (ValueType.Int x, s)
      | Token.String x => Except.ok (ValueType.String x, s)
      | Token.Bool x => Except.ok (ValueType.Bool x, s)
      | Token.Identifier x =>
          match getVal s.globals x with
          | some v => Except.ok (v, s)
          | none => Except.error s
      | Token.Other => Except.ok (ValueType.Nothing, s)
  | Expr.FnCall name args, s =>
      match interpretArgs args s with
      | Except.error s' => Except.error s'
      | Except.ok (vs, s') => callFn name vs s'

/-- The argument loop of the `Expr::FnCall` arm: reduce each argument
expression left to right, collecting the values. -/
def interpretArgs : List Expr → St → Except St (List ValueType × St)
  | [], s => Except.ok ([], s)
  | e :: es, s =>
      match interpretExpr e s with
      | Except.error s' => Except.error s'
      | Except.ok (v, s') =>
          match interpretArgs es s' with
          | Except.error s'' => Except.error s''
          | Except.ok (vs, s'') => Except.ok (v :: vs, s'')
end

/-- The loop body of `Interpreter::run` over the remaining top-level
expressions: reduce each in order, discarding the value; stop at the first
fault. -/
def runExprs : List Expr → St → Except St St
  | [], s => Except.ok s
  | e :: es, s =>
      match interpretExpr e s with
      | Except.error s' => Except.error s'
      | Except.ok (_, s') => runExprs es s'

/-- Rust `Interpreter::run` after `Interpreter::new(exprs)`: the environment
starts empty and stdout empty. -/
def Interpreter.run (exprs : List Expr) : Except St St :=
  runExprs exprs (St.mk [] "")

/-- The globals component of an evaluation result, whether it yielded a
value or faulted. -/
def resGlobals : Except St (ValueType × St) → Globals
  | Except.error t => t.globals
  | Except.ok (_, t) => t.globals

/-- The globals component of an argument-list evaluation result. -/
def resGlobalsArgs : Except St (List ValueType × St) → Globals
  | Except.error t => t.globals
  | Except.ok (_, t) => t.globals

mutual
/-- The expression contains no assignment (`Operator.SetVal`) node anywhere
in its subtree. -/
def noSetVal : Expr → Bool
  | Expr.BinaryExpr Operator.SetVal _ _ => false
  | Expr.BinaryExpr _ lhs rhs => noSetVal lhs && noSetVal rhs
  | Expr.Token _ => true
  | Expr.FnCall _ args => noSetValList args

/-- Predicate `noSetVal` holds of every expression in the list. -/
def noSetValList : List Expr → Bool
  | [] => true
  | e :: es => noSetVal e && noSetValList es
end

/-- Both operands are `Int` values. -/
def isIntPair (l r : ValueType) : Prop :=
  ∃ a b, l = ValueType.Int a ∧ r = ValueType.Int b

/-- Both operands are `String` values. -/
def isStringPair (l r : ValueType) : Prop :=
  ∃ a b, l = ValueType.String a ∧ r = ValueType.String b

/-- Both operands are `Bool` values. -/
def isBoolPair (l r : ValueType) : Prop :=
  ∃ a b, l = ValueType.Bool a ∧ r = ValueType.Bool b

example : interpretExpr
    (Expr.BinaryExpr Operator.Add (Expr.Token (Token.Num 1))
      (Expr.Token (Token.Num 2))) (St.mk [] "") =
    Except.ok (ValueType.Int 3, St.mk [] "") := rfl

example : Interpreter.run
    [Expr.BinaryExpr Operator.SetVal (Expr.Token (Token.Identifier "x"))
       (Expr.Token (Token.Num 5)),
     Expr.BinaryExpr Operator.SetVal (Expr.Token (Token.Identifier "y"))
       (Expr.BinaryExpr Operator.Add (Expr.Token (Token.Identifier "x"))
         (Expr.Token (Token.Num 3))),
     Expr.FnCall "print" [Expr.Token (Token.Identifier "y")]] =
    Except.ok (St.mk [("x", ValueType.Int 5), ("y", ValueType.Int 8)] "8\n") :=
  rfl

example : Interpreter.run
    [Expr.FnCall "print"
      [Expr.Token (Token.String "a"), Expr.Token (Token.String "b")]] =
    Except.ok (St.mk [] "a, b\n") := rfl

example : Interpreter.run
    [Expr.FnCall "print"
      [Expr.Token (Token.Num 1), Expr.Token (Token.Num 2),
       Expr.Token (Token.Num 3)]] =
    Except.ok (St.mk [] "1, 2, 3\n") := rfl

example : Interpreter.run
    [Expr.FnCall "print" [Expr.Token (Token.Num 1), Expr.Token (Token.Num 1)]] =
    Except.ok (St.mk [] "11\n") := rfl

/-- A key just inserted by `HashMap::insert` is found by lookup with the
inserted value, whatever was bound before. -/
theorem getVal_insertVal_self (g : Globals) (k : String) (v : ValueType) :
    getVal (insertVal g k v) k = some v := by
  induction g with
  | nil => simp [insertVal, getVal]
  | cons p rest ih =>
      obtain ⟨k', v'⟩ := p
      by_cases h : k' = k <;> simp [insertVal, getVal, h, ih]

/-- C4: a `print` call with zero arguments is an out-of-bounds fault (the
single-argument branch indexes `args[0]`), and a `print` call with at least
one argument never faults. -/
theorem print_zero_args_faults :
    (∀ s : St, callFn "print" [] s = Except.error s) ∧
    (∀ (args : List ValueType) (s t : St),
        args ≠ [] → callFn "print" args s ≠ Except.error t) := by
  constructor
  · intro s; rfl
  · intro args s t hne
    match args with
    | [a] => simp [callFn]
    | a :: b :: rest =>
        have hl : 1 < (a :: b :: rest).length := by
          simp [List.length_cons]
        simp [callFn, hl]

/-- Witness for C4 at concrete inputs: `print()` faults from the empty
start state, `print(5)` does not. -/
theorem print_zero_args_faults_witness :
    callFn "print" [] (St.mk [] "") = Except.error (St.mk [] "") ∧
    callFn "print" [ValueType.Int 5] (St.mk [] "") ≠
      Except.error (St.mk [] "") :=
  ⟨print_zero_args_faults.1 (St.mk [] ""),
   print_zero_args_faults.2 [ValueType.Int 5] (St.mk [] "") (St.mk [] "")
     (List.cons_ne_nil _ _)⟩

/-- C5: an assignment `x := e` first reduces `e` to a value `v`, then binds
`v` under the name `x` (overwriting any prior binding, the environment and
output being whatever `e`'s reduction left) and yields `Nothing`; reducing
the identifier `x` afterwards yields exactly `v`. -/
theorem assignment_then_lookup (x : String) (e : Expr) (v : ValueType)
    (s s1 : St) (he : interpretExpr e s = Except.ok (v, s1)) :
    interpretExpr
        (Expr.BinaryExpr Operator.SetVal (Expr.Token (Token.Identifier x)) e)
        s =
      Except.ok (ValueType.Nothing, St.mk (insertVal s1.globals x v) s1.out) ∧
    interpretExpr (Expr.Token (Token.Identifier x))
        (St.mk (insertVal s1.globals x v) s1.out) =
      Except.ok (v, St.mk (insertVal s1.globals x v) s1.out) := by
  constructor
  · simp only [interpretExpr, he]
    rfl
  · simp only [interpretExpr]
    rw [getVal_insertVal_self]

/-- Witness for C5: assigning the literal 42 to `x` in the empty state then
looking `x` up yields 42. -/
theorem assignment_then_lookup_witness :
    interpretExpr
        (Expr.BinaryExpr Operator.SetVal (Expr.Token (Token.Identifier "x"))
          (Expr.Token (Token.Num 42)))
        (St.mk [] "") =
      Except.ok (ValueType.Nothing,
        St.mk (insertVal ([] : Globals) "x" (ValueType.Int 42)) "") ∧
    interpretExpr (Expr.Token (Token.Identifier "x"))
        (St.mk (insertVal ([] : Globals) "x" (ValueType.Int 42)) "") =
      Except.ok (ValueType.Int 42,
        St.mk (insertVal ([] : Globals) "x" (ValueType.Int 42)) "") :=
  assignment_then_lookup "x" (Expr.Token (Token.Num 42)) (ValueType.Int 42)
    (St.mk [] "") (St.mk [] "") rfl

/-- C8: an identifier reduces to the bound value and faults exactly when the
name is unbound; a call whose name is not `print` is an undefined-function
fault no matter what the environment binds, both at the `call_fn` level and
for a whole `FnCall` node whose arguments reduce without fault. -/
theorem name_resolution :
    (∀ (x : String) (s : St),
        interpretExpr (Expr.Token (Token.Identifier x)) s = Except.error s ↔
          getVal s.globals x = none) ∧
    (∀ (x : String) (s : St) (v : ValueType),
        getVal s.globals x = some v →
          interpretExpr (Expr.Token (Token.Identifier x)) s =
            Except.ok (v, s)) ∧
    (∀ (name : String) (args : List ValueType) (s : St),
        name ≠ "print" → callFn name args s = Except.error s) ∧
    (∀ (name : String) (args : List Expr) (s : St) (vs : List ValueType)
        (t : St),
        name ≠ "print" → interpretArgs args s = Except.ok (vs, t) →
          interpretExpr (Expr.FnCall name args) s = Except.error t) := by
  refine ⟨?_, ?_, ?_, ?_⟩
  · intro x s
    simp only [interpretExpr]
    cases hg : getVal s.globals x <;> simp
  · intro x s v hg
    simp only [interpretExpr, hg]
  · intro name args s hname
    simp [callFn, hname]
  · intro name args s vs t hname hargs
    simp only [interpretExpr, hargs]
    simp [callFn, hname]

/-- Witness for C8 at concrete inputs: `y` is unbound in the empty state,
`x` is bound to 7 in a one-entry state, and calling `foo` faults both at
dispatch level and as a full call node. -/
theorem name_resolution_witness :
    interpretExpr (Expr.Token (Token.Identifier "y")) (St.mk [] "") =
      Except.error (St.mk [] "") ∧
    interpretExpr (Expr.Token (Token.Identifier "x"))
        (St.mk [("x", ValueType.Int 7)] "") =
      Except.ok (ValueType.Int 7, St.mk [("x", ValueType.Int 7)] "") ∧
    callFn "foo" [] (St.mk [] "") = Except.error (St.mk [] "") ∧
    interpretExpr (Expr.FnCall "foo" [Expr.Token (Token.Num 1)])
        (St.mk [] "") =
      Except.error (St.mk [] "") :=
  ⟨(name_resolution.1 "y" (St.mk [] "")).mpr rfl,
   name_resolution.2.1 "x" (St.mk [("x", ValueType.Int 7)] "")
     (ValueType.Int 7) rfl,
   name_resolution.2.2.1 "foo" [] (St.mk [] "") (by decide),
   name_resolution.2.2.2 "foo" [Expr.Token (Token.Num 1)] (St.mk [] "")
     [ValueType.Int 1] (St.mk [] "") (by decide) rfl⟩

/-- C9: `run` reduces the top-level expressions strictly in order,
discarding each value; a fault in one expression makes the whole run end in
exactly the faulting state (nothing after it executes, no further
environment mutation or output), and a fault-free run ends after the last
expression. -/
theorem run_sequencing :
    (∀ (e : Expr) (es : List Expr) (s sf : St),
        interpretExpr e s = Except.error sf →
          runExprs (e :: es) s = Except.error sf) ∧
    (∀ (e : Expr) (es : List Expr) (s : St) (v : ValueType) (s' : St),
        interpretExpr e s = Except.ok (v, s') →
          runExprs (e :: es) s = runExprs es s') ∧
    (∀ s : St, runExprs [] s = Except.ok s) := by
  refine ⟨?_, ?_, ?_⟩
  · intro e es s sf h
    simp only [runExprs, h]
  · intro e es s v s' h
    simp only [runExprs, h]
  · intro s
    rfl

/-- Witness for C9 at concrete inputs: an unbound identifier faults and the
`print` after it never runs; a literal head expression is discarded and the
run continues with the tail; the empty program ends immediately. -/
theorem run_sequencing_witness :
    runExprs
        [Expr.Token (Token.Identifier "z"),
         Expr.FnCall "print" [Expr.Token (Token.Num 1)]]
        (St.mk [] "") =
      Except.error (St.mk [] "") ∧
    runExprs [Expr.Token (Token.Num 3)] (St.mk [] "") =
      runExprs [] (St.mk [] "") ∧
    runExprs [] (St.mk [] "") = Except.ok (St.mk [] "") :=
  ⟨run_sequencing.1 (Expr.Token (Token.Identifier "z"))
     [Expr.FnCall "print" [Expr.Token (Token.Num 1)]] (St.mk [] "")
     (St.mk [] "") rfl,
   run_sequencing.2.1 (Expr.Token (Token.Num 3)) [] (St.mk [] "")
     (ValueType.Int 3) (St.mk [] "") rfl,
   run_sequencing.2.2 (St.mk [] "")⟩

/-- Truncating `i64` division of in-range operands stays in range except in
the overflow case `i64Min / -1` (excluded by hypothesis). -/
theorem tdiv_inI64 (a b : Int) (ha1 : i64Min ≤ a) (ha2 : a ≤ i64Max)
    (hb : b ≠ 0) (hnot : ¬(a = i64Min ∧ b = -1)) :
    i64Min ≤ Int.tdiv a b ∧ Int.tdiv a b ≤ i64Max := by
  have hbig : (2 : Int) ^ 63 = 9223372036854775808 := by norm_num
  unfold i64Min i64Max at *
  rw [hbig] at ha1 ha2 hnot ⊢
  have hba : 1 ≤ b.natAbs := by omega
  rcases Nat.lt_or_ge b.natAbs 2 with h2 | h2
  · have hb1 : b = 1 ∨ b = -1 := by omega
    rcases hb1 with rfl | rfl
    · rw [Int.tdiv_one]; exact ⟨ha1, ha2⟩
    · have hne : a ≠ -9223372036854775808 := fun h => hnot ⟨h, rfl⟩
      have hv : Int.tdiv a (-1) = -a := by
        rw [show (-1 : Int) = -(1 : Int) from rfl, Int.tdiv_neg, Int.tdiv_one]
      rw [hv]
      omega
  · have h1 : (Int.tdiv a b).natAbs = a.natAbs / b.natAbs := Int.natAbs_tdiv a b
    have h3 : a.natAbs ≤ 9223372036854775808 := by omega
    have h4 : a.natAbs / b.natAbs ≤ a.natAbs / 2 := Nat.div_le_div_left h2 (by omega)
    have h5 : a.natAbs / 2 ≤ 9223372036854775808 / 2 := Nat.div_le_div_right h3
    omega

/-- Counterexample to C2 as stated: at `a = i64Max`, `b = 1` the host
addition overflows, so reduction faults instead of yielding the exact
mathematical sum `2 ^ 63`. -/
theorem integer_arithmetic_exact_cex :
    interpretExpr
        (Expr.BinaryExpr Operator.Add (Expr.Token (Token.Num i64Max))
          (Expr.Token (Token.Num 1))) (St.mk [] "") =
      Except.error (St.mk [] "") ∧
    interpretExpr
        (Expr.BinaryExpr Operator.Add (Expr.Token (Token.Num i64Max))
          (Expr.Token (Token.Num 1))) (St.mk [] "") ≠
      Except.ok (ValueType.Int (2 ^ 63), St.mk [] "") := by
  have h : interpretExpr
      (Expr.BinaryExpr Operator.Add (Expr.Token (Token.Num i64Max))
        (Expr.Token (Token.Num 1))) (St.mk [] "") =
      Except.error (St.mk [] "") := by
    simp only [interpretExpr]
    rw [show checkedI64 (i64Max + 1) = none from by
      norm_num [checkedI64, i64Min, i64Max]]
  exact ⟨h, by rw [h]; intro hc; exact Except.noConfusion hc⟩

/-- C2 (amended): for in-range `i64` literal operands, each arithmetic
operator yields the exact mathematical result whenever that result is
itself representable in `i64` (for division: the divisor is nonzero and the
operands are not `i64Min` and `-1`); the quotient is truncated toward
zero. -/
theorem integer_literal_arithmetic (a b : Int) (s : St)
    (ha1 : i64Min ≤ a) (ha2 : a ≤ i64Max)
    (_hb1 : i64Min ≤ b) (_hb2 : b ≤ i64Max) :
    (i64Min ≤ a + b → a + b ≤ i64Max →
      interpretExpr
          (Expr.BinaryExpr Operator.Add (Expr.Token (Token.Num a))
            (Expr.Token (Token.Num b))) s =
        Except.ok (ValueType.Int (a + b), s)) ∧
    (i64Min ≤ a - b → a - b ≤ i64Max →
      interpretExpr
          (Expr.BinaryExpr Operator.Sub (Expr.Token (Token.Num a))
            (Expr.Token (Token.Num b))) s =
        Except.ok (ValueType.Int (a - b), s)) ∧
    (i64Min ≤ a * b → a * b ≤ i64Max →
      interpretExpr
          (Expr.BinaryExpr Operator.Mul (Expr.Token (Token.Num a))
            (Expr.Token (Token.Num b))) s =
        Except.ok (ValueType.Int (a * b), s)) ∧
    (b ≠ 0 → ¬(a = i64Min ∧ b = -1) →
      interpretExpr
          (Expr.BinaryExpr Operator.Div (Expr.Token (Token.Num a))
            (Expr.Token (Token.Num b))) s =
        Except.ok (ValueType.Int (Int.tdiv a b), s)) := by
  refine ⟨?_, ?_, ?_, ?_⟩
  · intro h1 h2
    simp only [interpretExpr]
    rw [show checkedI64 (a + b) = some (a + b) from if_pos ⟨h1, h2⟩]
  · intro h1 h2
    simp only [interpretExpr]
    rw [show checkedI64 (a - b) = some (a - b) from if_pos ⟨h1, h2⟩]
  · intro h1 h2
    simp only [interpretExpr]
    rw [show checkedI64 (a * b) = some (a * b) from if_pos ⟨h1, h2⟩]
  · intro hb0 hnot
    obtain ⟨hq1, hq2⟩ := tdiv_inI64 a b ha1 ha2 hb0 hnot
    simp only [interpretExpr]
    rw [if_neg hb0,
      show checkedI64 (Int.tdiv a b) = some (Int.tdiv a b) from
        if_pos ⟨hq1, hq2⟩]

/-- Witness for C2 at `a = 7`, `b = 2`: the four operators yield 9, 5, 14
and the truncated quotient 3. -/
theorem integer_literal_arithmetic_witness :
    interpretExpr
        (Expr.BinaryExpr Operator.Add (Expr.Token (Token.Num 7))
          (Expr.Token (Token.Num 2))) (St.mk [] "") =
      Except.ok (ValueType.Int 9, St.mk [] "") ∧
    interpretExpr
        (Expr.BinaryExpr Operator.Sub (Expr.Token (Token.Num 7))
          (Expr.Token (Token.Num 2))) (St.mk [] "") =
      Except.ok (ValueType.Int 5, St.mk [] "") ∧
    interpretExpr
        (Expr.BinaryExpr Operator.Mul (Expr.Token (Token.Num 7))
          (Expr.Token (Token.Num 2))) (St.mk [] "") =
      Except.ok (ValueType.Int 14, St.mk [] "") ∧
    interpretExpr
        (Expr.BinaryExpr Operator.Div (Expr.Token (Token.Num 7))
          (Expr.Token (Token.Num 2))) (St.mk [] "") =
      Except.ok (ValueType.Int 3, St.mk [] "") := by
  have h := integer_literal_arithmetic 7 2 (St.mk [] "")
    (by norm_num [i64Min]) (by norm_num [i64Max])
    (by norm_num [i64Min]) (by norm_num [i64Max])
  refine ⟨h.1 (by norm_num [i64Min]) (by norm_num [i64Max]),
    h.2.1 (by norm_num [i64Min]) (by norm_num [i64Max]),
    h.2.2.1 (by norm_num [i64Min]) (by norm_num [i64Max]), ?_⟩
  have h4 := h.2.2.2 (by norm_num) (by norm_num [i64Min])
  rw [show Int.tdiv 7 2 = 3 from rfl] at h4
  exact h4

/-- C3: a division node whose operands reduce to in-range integers `a` and
`b` faults exactly when the host division faults, i.e. when `b = 0` or when
`a = i64Min` and `b = -1`; otherwise it yields the quotient truncated
toward zero; and a division node whose operands reduce to anything other
than two integers is a fatal type error. -/
theorem division_fault_condition (lhs rhs : Expr) (s t1 t2 : St)
    (l r : ValueType)
    (hl : interpretExpr lhs s = Except.ok (l, t1))
    (hr : interpretExpr rhs t1 = Except.ok (r, t2)) :
    (∀ a b : Int, l = ValueType.Int a → r = ValueType.Int b →
      i64Min ≤ a → a ≤ i64Max → i64Min ≤ b → b ≤ i64Max →
      ((interpretExpr (Expr.BinaryExpr Operator.Div lhs rhs) s =
          Except.error t2 ↔ (b = 0 ∨ (a = i64Min ∧ b = -1))) ∧
       (b ≠ 0 → ¬(a = i64Min ∧ b = -1) →
         interpretExpr (Expr.BinaryExpr Operator.Div lhs rhs) s =
           Except.ok (ValueType.Int (Int.tdiv a b), t2)))) ∧
    (¬ isIntPair l r →
      interpretExpr (Expr.BinaryExpr Operator.Div lhs rhs) s =
        Except.error t2) := by
  constructor
  · rintro a b rfl rfl ha1 ha2 hb1 hb2
    have hok : (b ≠ 0 → ¬(a = i64Min ∧ b = -1) →
        interpretExpr (Expr.BinaryExpr Operator.Div lhs rhs) s =
          Except.ok (ValueType.Int (Int.tdiv a b), t2)) := by
      intro hb0 hnot
      obtain ⟨hq1, hq2⟩ := tdiv_inI64 a b ha1 ha2 hb0 hnot
      simp only [interpretExpr, hl, hr]
      rw [if_neg hb0,
        show checkedI64 (Int.tdiv a b) = some (Int.tdiv a b) from
          if_pos ⟨hq1, hq2⟩]
    refine ⟨⟨fun herr => ?_, fun hcond => ?_⟩, hok⟩
    · by_cases hb0 : b = 0
      · exact Or.inl hb0
      · by_cases hnot : a = i64Min ∧ b = -1
        · exact Or.inr hnot
        · rw [hok hb0 hnot] at herr
          exact absurd herr (fun hc => Except.noConfusion hc)
    · simp only [interpretExpr, hl, hr]
      rcases hcond with rfl | ⟨rfl, rfl⟩
      · rw [if_pos rfl]
      · rw [if_neg (by norm_num),
          show checkedI64 (Int.tdiv i64Min (-1)) = none from by
            rw [show (-1 : Int) = -(1 : Int) from rfl, Int.tdiv_neg,
              Int.tdiv_one]
            norm_num [checkedI64, i64Min, i64Max]]
  · intro hni
    simp only [interpretExpr, hl, hr]
    match l, r with
    | ValueType.Int a, ValueType.Int b =>
        exact absurd ⟨a, b, rfl, rfl⟩ hni
    | ValueType.Int _, ValueType.String _ => rfl
    | ValueType.Int _, ValueType.Bool _ => rfl
    | ValueType.Int _, ValueType.Fn _ => rfl
    | ValueType.Int _, ValueType.Nothing => rfl
    | ValueType.String _, _ => rfl
    | ValueType.Bool _, _ => rfl
    | ValueType.Fn _, _ => rfl
    | ValueType.Nothing, _ => rfl

/-- Witness for C3 at concrete inputs: `7 / 0` faults, `7 / 2` yields 3, and
`"a" / 2` is a fatal type error. -/
theorem division_fault_condition_witness :
    interpretExpr
        (Expr.BinaryExpr Operator.Div (Expr.Token (Token.Num 7))
          (Expr.Token (Token.Num 0))) (St.mk [] "") =
      Except.error (St.mk [] "") ∧
    interpretExpr
        (Expr.BinaryExpr Operator.Div (Expr.Token (Token.Num 7))
          (Expr.Token (Token.Num 2))) (St.mk [] "") =
      Except.ok (ValueType.Int (Int.tdiv 7 2), St.mk [] "") ∧
    interpretExpr
        (Expr.BinaryExpr Operator.Div (Expr.Token (Token.String "a"))
          (Expr.Token (Token.Num 2))) (St.mk [] "") =
      Except.error (St.mk [] "") := by
  refine ⟨?_, ?_, ?_⟩
  · exact ((division_fault_condition (Expr.Token (Token.Num 7))
      (Expr.Token (Token.Num 0)) (St.mk [] "") (St.mk [] "") (St.mk [] "")
      (ValueType.Int 7) (ValueType.Int 0) rfl rfl).1 7 0 rfl rfl
      (by norm_num [i64Min]) (by norm_num [i64Max])
      (by norm_num [i64Min]) (by norm_num [i64Max])).1.mpr (Or.inl rfl)
  · exact ((division_fault_condition (Expr.Token (Token.Num 7))
      (Expr.Token (Token.Num 2)) (St.mk [] "") (St.mk [] "") (St.mk [] "")
      (ValueType.Int 7) (ValueType.Int 2) rfl rfl).1 7 2 rfl rfl
      (by norm_num [i64Min]) (by norm_num [i64Max])
      (by norm_num [i64Min]) (by norm_num [i64Max])).2
      (by norm_num) (by norm_num [i64Min])
  · exact (division_fault_condition (Expr.Token (Token.String "a"))
      (Expr.Token (Token.Num 2)) (St.mk [] "") (St.mk [] "") (St.mk [] "")
      (ValueType.String "a") (ValueType.Int 2) rfl rfl).2
      (by rintro ⟨a, b, ⟨⟩, ⟨⟩⟩)

/-- Counterexample to C6 as stated: at operands `i64Min` and `-1` both
reduce to integers but their sum overflows `i64`, so the addition faults
instead of yielding the Integer sum. -/
theorem addition_semantics_cex :
    interpretExpr
        (Expr.BinaryExpr Operator.Add (Expr.Token (Token.Num i64Min))
          (Expr.Token (Token.Num (-1)))) (St.mk [] "") =
      Except.error (St.mk [] "") ∧
    interpretExpr
        (Expr.BinaryExpr Operator.Add (Expr.Token (Token.Num i64Min))
          (Expr.Token (Token.Num (-1)))) (St.mk [] "") ≠
      Except.ok (ValueType.Int (i64Min - 1), St.mk [] "") := by
  have h : interpretExpr
      (Expr.BinaryExpr Operator.Add (Expr.Token (Token.Num i64Min))
        (Expr.Token (Token.Num (-1)))) (St.mk [] "") =
      Except.error (St.mk [] "") := by
    simp only [interpretExpr]
    rw [show checkedI64 (i64Min + -1) = none from by
      norm_num [checkedI64, i64Min, i64Max]]
  exact ⟨h, by rw [h]; intro hc; exact Except.noConfusion hc⟩

/-- C6 (amended): after reducing both operands left before right, an
addition node yields the Integer sum of two Integer operands whenever that
sum is representable in `i64` (and faults when it overflows), yields the
concatenation of two Text operands, and is a fatal type error for every
other operand pairing. -/
theorem addition_semantics (lhs rhs : Expr) (s t1 t2 : St)
    (l r : ValueType)
    (hl : interpretExpr lhs s = Except.ok (l, t1))
    (hr : interpretExpr rhs t1 = Except.ok (r, t2)) :
    (∀ a b : Int, l = ValueType.Int a → r = ValueType.Int b →
      (i64Min ≤ a + b → a + b ≤ i64Max →
        interpretExpr (Expr.BinaryExpr Operator.Add lhs rhs) s =
          Except.ok (ValueType.Int (a + b), t2)) ∧
      (¬ (i64Min ≤ a + b ∧ a + b ≤ i64Max) →
        interpretExpr (Expr.BinaryExpr Operator.Add lhs rhs) s =
          Except.error t2)) ∧
    (∀ u w : String, l = ValueType.String u → r = ValueType.String w →
      interpretExpr (Expr.BinaryExpr Operator.Add lhs rhs) s =
        Except.ok (ValueType.String (u ++ w), t2)) ∧
    (¬ isIntPair l r → ¬ isStringPair l r →
      interpretExpr (Expr.BinaryExpr Operator.Add lhs rhs) s =
        Except.error t2) := by
  refine ⟨?_, ?_, ?_⟩
  · rintro a b rfl rfl
    constructor
    · intro h1 h2
      simp only [interpretExpr, hl, hr]
      rw [show checkedI64 (a + b) = some (a + b) from if_pos ⟨h1, h2⟩]
    · intro hover
      simp only [interpretExpr, hl, hr]
      rw [show checkedI64 (a + b) = none from if_neg hover]
  · rintro u w rfl rfl
    simp only [interpretExpr, hl, hr]
  · intro hni hns
    simp only [interpretExpr, hl, hr]
    match l, r with
    | ValueType.Int a, ValueType.Int b =>
        exact absurd ⟨a, b, rfl, rfl⟩ hni
    | ValueType.String u, ValueType.String w =>
        exact absurd ⟨u, w, rfl, rfl⟩ hns
    | ValueType.Int _, ValueType.String _ => rfl
    | ValueType.Int _, ValueType.Bool _ => rfl
    | ValueType.Int _, ValueType.Fn _ => rfl
    | ValueType.Int _, ValueType.Nothing => rfl
    | ValueType.String _, ValueType.Int _ => rfl
    | ValueType.String _, ValueType.Bool _ => rfl
    | ValueType.String _, ValueType.Fn _ => rfl
    | ValueType.String _, ValueType.Nothing => rfl
    | ValueType.Bool _, _ => rfl
    | ValueType.Fn _, _ => rfl
    | ValueType.Nothing, _ => rfl

/-- Witness for C6 at concrete inputs: `2 + 3` yields 5, `"a" + "b"` yields
`"ab"`, and `true + 1` is a fatal type error. -/
theorem addition_semantics_witness :
    interpretExpr
        (Expr.BinaryExpr Operator.Add (Expr.Token (Token.Num 2))
          (Expr.Token (Token.Num 3))) (St.mk [] "") =
      Except.ok (ValueType.Int 5, St.mk [] "") ∧
    interpretExpr
        (Expr.BinaryExpr Operator.Add (Expr.Token (Token.String "a"))
          (Expr.Token (Token.String "b"))) (St.mk [] "") =
      Except.ok (ValueType.String "ab", St.mk [] "") ∧
    interpretExpr
        (Expr.BinaryExpr Operator.Add (Expr.Token (Token.Bool true))
          (Expr.Token (Token.Num 1))) (St.mk [] "") =
      Except.error (St.mk [] "") := by
  refine ⟨?_, ?_, ?_⟩
  · exact ((addition_semantics (Expr.Token (Token.Num 2))
      (Expr.Token (Token.Num 3)) (St.mk [] "") (St.mk [] "") (St.mk [] "")
      (ValueType.Int 2) (ValueType.Int 3) rfl rfl).1 2 3 rfl rfl).1
      (by norm_num [i64Min]) (by norm_num [i64Max])
  · exact (addition_semantics (Expr.Token (Token.String "a"))
      (Expr.Token (Token.String "b")) (St.mk [] "") (St.mk [] "")
      (St.mk [] "") (ValueType.String "a") (ValueType.String "b")
      rfl rfl).2.1 "a" "b" rfl rfl
  · exact (addition_semantics (Expr.Token (Token.Bool true))
      (Expr.Token (Token.Num 1)) (St.mk [] "") (St.mk [] "") (St.mk [] "")
      (ValueType.Bool true) (ValueType.Int 1) rfl rfl).2.2
      (by rintro ⟨a, b, ⟨⟩, ⟨⟩⟩) (by rintro ⟨u, w, ⟨⟩, ⟨⟩⟩)

/-- C7: after reducing both operands, equality and inequality nodes compare
same-variant Integer, Text and Boolean operands by value equality (the
inequality node yields the negation), and any pairing involving a Function
or Unit operand or two different variants is a fatal type error. -/
theorem comparison_semantics (lhs rhs : Expr) (s t1 t2 : St)
    (l r : ValueType)
    (hl : interpretExpr lhs s = Except.ok (l, t1))
    (hr : interpretExpr rhs t1 = Except.ok (r, t2)) :
    (∀ a b : Int, l = ValueType.Int a → r = ValueType.Int b →
      interpretExpr (Expr.BinaryExpr Operator.Eq lhs rhs) s =
        Except.ok (ValueType.Bool (decide (a = b)), t2) ∧
      interpretExpr (Expr.BinaryExpr Operator.Neq lhs rhs) s =
        Except.ok (ValueType.Bool (!decide (a = b)), t2)) ∧
    (∀ u w : String, l = ValueType.String u → r = ValueType.String w →
      interpretExpr (Expr.BinaryExpr Operator.Eq lhs rhs) s =
        Except.ok (ValueType.Bool (decide (u = w)), t2) ∧
      interpretExpr (Expr.BinaryExpr Operator.Neq lhs rhs) s =
        Except.ok (ValueType.Bool (!decide (u = w)), t2)) ∧
    (∀ p q : Bool, l = ValueType.Bool p → r = ValueType.Bool q →
      interpretExpr (Expr.BinaryExpr Operator.Eq lhs rhs) s =
        Except.ok (ValueType.Bool (decide (p = q)), t2) ∧
      interpretExpr (Expr.BinaryExpr Operator.Neq lhs rhs) s =
        Except.ok (ValueType.Bool (!decide (p = q)), t2)) ∧
    (¬ isIntPair l r → ¬ isStringPair l r → ¬ isBoolPair l r →
      interpretExpr (Expr.BinaryExpr Operator.Eq lhs rhs) s =
        Except.error t2 ∧
      interpretExpr (Expr.BinaryExpr Operator.Neq lhs rhs) s =
        Except.error t2) := by
  refine ⟨?_, ?_, ?_, ?_⟩
  · rintro a b rfl rfl
    constructor <;> (simp only [interpretExpr, hl, hr]; rfl)
  · rintro u w rfl rfl
    constructor <;> (simp only [interpretExpr, hl, hr]; rfl)
  · rintro p q rfl rfl
    constructor <;> (simp only [interpretExpr, hl, hr]; rfl)
  · intro hni hns hnb
    simp only [interpretExpr, hl, hr]
    match l, r with
    | ValueType.Int a, ValueType.Int b =>
        exact absurd ⟨a, b, rfl, rfl⟩ hni
    | ValueType.String u, ValueType.String w =>
        exact absurd ⟨u, w, rfl, rfl⟩ hns
    | ValueType.Bool p, ValueType.Bool q =>
        exact absurd ⟨p, q, rfl, rfl⟩ hnb
    | ValueType.Int _, ValueType.String _ => exact ⟨rfl, rfl⟩
    | ValueType.Int _, ValueType.Bool _ => exact ⟨rfl, rfl⟩
    | ValueType.Int _, ValueType.Fn _ => exact ⟨rfl, rfl⟩
    | ValueType.Int _, ValueType.Nothing => exact ⟨rfl, rfl⟩
    | ValueType.String _, ValueType.Int _ => exact ⟨rfl, rfl⟩
    | ValueType.String _, ValueType.Bool _ => exact ⟨rfl, rfl⟩
    | ValueType.String _, ValueType.Fn _ => exact ⟨rfl, rfl⟩
    | ValueType.String _, ValueType.Nothing => exact ⟨rfl, rfl⟩
    | ValueType.Bool _, ValueType.Int _ => exact ⟨rfl, rfl⟩
    | ValueType.Bool _, ValueType.String _ => exact ⟨rfl, rfl⟩
    | ValueType.Bool _, ValueType.Fn _ => exact ⟨rfl, rfl⟩
    | ValueType.Bool _, ValueType.Nothing => exact ⟨rfl, rfl⟩
    | ValueType.Fn _, _ => exact ⟨rfl, rfl⟩
    | ValueType.Nothing, _ => exact ⟨rfl, rfl⟩

/-- Witness for C7 at concrete inputs: `2 == 2` yields true, `"a" != "b"`
yields true, and comparing `true` with `1` faults for both operators. -/
theorem comparison_semantics_witness :
    interpretExpr
        (Expr.BinaryExpr Operator.Eq (Expr.Token (Token.Num 2))
          (Expr.Token (Token.Num 2))) (St.mk [] "") =
      Except.ok (ValueType.Bool true, St.mk [] "") ∧
    interpretExpr
        (Expr.BinaryExpr Operator.Neq (Expr.Token (Token.String "a"))
          (Expr.Token (Token.String "b"))) (St.mk [] "") =
      Except.ok (ValueType.Bool true, St.mk [] "") ∧
    interpretExpr
        (Expr.BinaryExpr Operator.Eq (Expr.Token (Token.Bool true))
          (Expr.Token (Token.Num 1))) (St.mk [] "") =
      Except.error (St.mk [] "") := by
  refine ⟨?_, ?_, ?_⟩
  · exact ((comparison_semantics (Expr.Token (Token.Num 2))
      (Expr.Token (Token.Num 2)) (St.mk [] "") (St.mk [] "") (St.mk [] "")
      (ValueType.Int 2) (ValueType.Int 2) rfl rfl).1 2 2 rfl rfl).1
  · exact ((comparison_semantics (Expr.Token (Token.String "a"))
      (Expr.Token (Token.String "b")) (St.mk [] "") (St.mk [] "")
      (St.mk [] "") (ValueType.String "a") (ValueType.String "b")
      rfl rfl).2.1 "a" "b" rfl rfl).2
  · exact ((comparison_semantics (Expr.Token (Token.Bool true))
      (Expr.Token (Token.Num 1)) (St.mk [] "") (St.mk [] "") (St.mk [] "")
      (ValueType.Bool true) (ValueType.Int 1) rfl rfl).2.2.2
      (by rintro ⟨a, b, ⟨⟩, ⟨⟩⟩) (by rintro ⟨u, w, ⟨⟩, ⟨⟩⟩)
      (by rintro ⟨p, q, ⟨⟩, ⟨⟩⟩)).1

/-- Built-in dispatch never touches the environment: `call_fn` returns or
faults with the globals it was given. -/
theorem callFn_globals (name : String) (args : List ValueType) (s : St) :
    resGlobals (callFn name args s) = s.globals := by
  unfold callFn
  split
  · split
    · rfl
    · split
      · rfl
      · rfl
  · rfl

mutual
/-- Helper for C10: evaluating an assignment-free expression leaves the
globals of the resulting state, normal or faulting, exactly as given. -/
theorem interpretExpr_frame (e : Expr) (s : St) (h : noSetVal e = true) :
    resGlobals (interpretExpr e s) = s.globals := by
  cases e with
  | BinaryExpr op lhs rhs =>
      cases op
      case SetVal => simp [noSetVal] at h
      all_goals (
        simp only [noSetVal, Bool.and_eq_true] at h
        obtain ⟨h1, h2⟩ := h
        simp only [interpretExpr]
        cases hL : interpretExpr lhs s with
        | error s1 =>
            have ih1 := interpretExpr_frame lhs s h1
            rw [hL] at ih1
            exact ih1
        | ok p =>
            obtain ⟨l, s1⟩ := p
            have ih1 := interpretExpr_frame lhs s h1
            rw [hL] at ih1
            dsimp only
            cases hR : interpretExpr rhs s1 with
            | error s2 =>
                have ih2 := interpretExpr_frame rhs s1 h2
                rw [hR] at ih2
                exact ih2.trans ih1
            | ok q =>
                obtain ⟨r, s2⟩ := q
                have ih2 := interpretExpr_frame rhs s1 h2
                rw [hR] at ih2
                have hs2 : s2.globals = s.globals := ih2.trans ih1
                dsimp only
                rw [← hs2]
                cases l <;> cases r <;> (repeat' split) <;> rfl)
  | Token t =>
      cases t <;> simp only [interpretExpr] <;> (repeat' split) <;> rfl
  | FnCall name args =>
      simp only [noSetVal] at h
      simp only [interpretExpr]
      cases hA : interpretArgs args s with
      | error s' =>
          have ih := interpretArgs_frame args s h
          rw [hA] at ih
          exact ih
      | ok p =>
          obtain ⟨vs, s'⟩ := p
          have ih := interpretArgs_frame args s h
          rw [hA] at ih
          exact (callFn_globals name vs s').trans ih

/-- Helper for C10 on argument lists: evaluating a list of assignment-free
expressions leaves the globals exactly as given. -/
theorem interpretArgs_frame (es : List Expr) (s : St)
    (h : noSetValList es = true) :
    resGlobalsArgs (interpretArgs es s) = s.globals := by
  cases es with
  | nil => rfl
  | cons e rest =>
      simp only [noSetValList, Bool.and_eq_true] at h
      obtain ⟨h1, h2⟩ := h
      simp only [interpretArgs]
      cases hE : interpretExpr e s with
      | error s' =>
          have ih := interpretExpr_frame e s h1
          rw [hE] at ih
          exact ih
      | ok p =>
          obtain ⟨v, s'⟩ := p
          have ih1 := interpretExpr_frame e s h1
          rw [hE] at ih1
          dsimp only
          cases hR : interpretArgs rest s' with
          | error s'' =>
              have ih2 := interpretArgs_frame rest s' h2
              rw [hR] at ih2
              exact ih2.trans ih1
          | ok q =>
              obtain ⟨vs, s''⟩ := q
              have ih2 := interpretArgs_frame rest s' h2
              rw [hR] at ih2
              exact ih2.trans ih1
end

/-- C10: reducing any expression that contains no assignment (`SetVal`)
node leaves the global environment exactly unchanged, whether the reduction
yields a value or faults; assignment is the only construct that mutates the
environment. -/
theorem no_assignment_frame (e : Expr) (s : St) (h : noSetVal e = true) :
    resGlobals (interpretExpr e s) = s.globals :=
  interpretExpr_frame e s h

/-- Witness for C10: a `print` call with an arithmetic argument, run in a
one-binding environment, leaves the globals exactly as they were. -/
theorem no_assignment_frame_witness :
    resGlobals (interpretExpr
      (Expr.FnCall "print"
        [Expr.BinaryExpr Operator.Add (Expr.Token (Token.Num 1))
          (Expr.Token (Token.Num 2))])
      (St.mk [("a", ValueType.Int 3)] "")) = [("a", ValueType.Int 3)] :=
  no_assignment_frame
    (Expr.FnCall "print"
      [Expr.BinaryExpr Operator.Add (Expr.Token (Token.Num 1))
        (Expr.Token (Token.Num 2))])
    (St.mk [("a", ValueType.Int 3)] "") rfl

/-- C1 does not hold as stated: in `print(1, 1)` the first argument equals
(by value) the last, so `call_fn` omits its `", "` separator and writes
`11` rather than the `", "`-join `1, 1` of the two renderings; the run
yields `"11\n"` on stdout. -/
theorem print_duplicate_last_separator :
    Interpreter.run
        [Expr.FnCall "print"
          [Expr.Token (Token.Num 1), Expr.Token (Token.Num 1)]] =
      Except.ok (St.mk [] "11\n") ∧
    "11\n" ≠ "1" ++ ", " ++ "1" ++ "\n" :=
  ⟨rfl, by decide⟩
